import Mathlib

/-!
Shallow embedding of the change-detection core of the js-sentinel repository
(`src/services/monitor_service.py` and `src/services/content_storage.py`).

Python floats are modelled as rationals (`ℚ`), Python dicts holding the
fingerprint data as Lean structures.  Library calls that are external to the
repository (hashlib.md5, difflib.SequenceMatcher, the regex-based normalizer)
are modelled as parameters of the embedding, collected in the `Hashing` and
`Matcher` structures; everything else is translated line by line from the
source.
-/

namespace JsSentinel

/-- One entry of the `chunk_details` list built by `generate_position_aware_hash`
(monitor_service.py lines 314-319).  The Python dict keys are
`start`/`end`/`hash`/`weight`; `end` is a Lean keyword so the field is named
`stop`. -/
structure Chunk where
  start : ℕ
  stop : ℕ
  hash : String
  weight : ℚ
deriving DecidableEq, Repr

/-- The `method` tag of a hash-info dict: `legacy` (monitor_service.py line 959),
`simple_content` and `position_aware_chunked` (lines 285, 334), `ast` (line 379). -/
inductive HashMethod
  | legacy
  | simple_content
  | position_aware_chunked
  | ast
deriving DecidableEq, Repr

/-- A fingerprint dict as produced by the hashing strategies and consumed by
`calculate_change_confidence`.  `chunk_details` is `[]` when the key is absent
(Python `.get('chunk_details', [])`, line 58-59); a missing/None `hash`
(legacy first run) is modelled as the empty string, which has the same Python
truthiness. -/
structure HashInfo where
  hash : String
  method : HashMethod
  confidence : ℚ
  chunks : ℕ
  chunk_details : List Chunk
deriving DecidableEq, Repr

/-- The `change_type` field of a changed-chunk record
(monitor_service.py lines 74, 81). -/
inductive ChangeType
  | added
  | removed
  | modified
deriving DecidableEq, Repr

/-- A changed-chunk record appended by `compare_chunk_hashes`
(monitor_service.py lines 72-85).  `start`/`stop` are `none` for
added/removed records, whose Python dicts carry no such keys. -/
structure ChangedChunk where
  chunk_index : ℕ
  change_type : ChangeType
  weight : ℚ
  start : Option ℕ
  stop : Option ℕ
deriving DecidableEq, Repr

/-- The body of the per-index loop of `compare_chunk_hashes`
(monitor_service.py lines 66-85): at index `i`, a chunk present on one side
only is added/removed with that chunk's weight; a pair of chunks with
differing hashes is modified with the new chunk's weight and position. -/
def changedChunkAt (old_chunks new_chunks : List Chunk) (i : ℕ) : Option ChangedChunk :=
  match old_chunks[i]?, new_chunks[i]? with
  | none, none => none
  | none, some c => some ⟨i, ChangeType.added, c.weight, none, none⟩
  | some c, none => some ⟨i, ChangeType.removed, c.weight, none, none⟩
  | some o, some c =>
      if o.hash ≠ c.hash then some ⟨i, ChangeType.modified, c.weight, some c.start, some c.stop⟩
      else none

/-- The `changed_chunks` list collected by `compare_chunk_hashes`
(monitor_service.py lines 61-85): indices `0 ≤ i < max(len(old), len(new))`
in order, keeping the records produced by `changedChunkAt`. -/
def changedChunks (old_chunks new_chunks : List Chunk) : List ChangedChunk :=
  (List.range (max old_chunks.length new_chunks.length)).filterMap
    (changedChunkAt old_chunks new_chunks)

/-- `total_weight` (monitor_service.py line 91): sum of the weights of
`old_chunks + new_chunks`. -/
def totalWeight (old_chunks new_chunks : List Chunk) : ℚ :=
  ((old_chunks ++ new_chunks).map Chunk.weight).sum

/-- `changed_weight` (monitor_service.py line 92). -/
def changedWeight (ccs : List ChangedChunk) : ℚ :=
  (ccs.map ChangedChunk.weight).sum

/-- `has_important_change` (monitor_service.py lines 96-99): some changed chunk
has index at most 1 and weight at least 2.0. -/
def hasImportantChange (ccs : List ChangedChunk) : Bool :=
  ccs.any (fun c => c.chunk_index ≤ 1 && (2 : ℚ) ≤ c.weight)

/-- Result dict of `compare_chunk_hashes`.  The early no-change return
`{'changed': False, 'confidence': 0.98}` (line 88) carries no
`changed_chunks`/`has_important_change` keys; downstream reads use
`.get(..., False)`, so the absent keys are modelled by `[]`, `0`, `false`. -/
structure ChunkCompareResult where
  changed : Bool
  confidence : ℚ
  changed_chunks : List ChangedChunk
  ratioChanged : ℚ
  has_important_change : Bool
deriving DecidableEq, Repr

/-- `compare_chunk_hashes(old_hash_info, new_hash_info)`
(monitor_service.py lines 53-121).  Returns `none` unless both fingerprints
used the `position_aware_chunked` method.  The field `ratioChanged` models the
dict key `change_ratio = changed_weight / total_weight if total_weight > 0
else 1.0` (line 93); confidence is `min(0.98, 0.85 + 0.10)` when an important
chunk changed, else `min(0.95, 0.85 + change_ratio * 0.10)` (lines 102-110). -/
def compare_chunk_hashes (old_info new_info : HashInfo) : Option ChunkCompareResult :=
  if old_info.method ≠ HashMethod.position_aware_chunked ∨
     new_info.method ≠ HashMethod.position_aware_chunked then none
  else
    let old_chunks := old_info.chunk_details
    let new_chunks := new_info.chunk_details
    let ccs := changedChunks old_chunks new_chunks
    if ccs = [] then some ⟨false, 98/100, [], 0, false⟩
    else
      let total := totalWeight old_chunks new_chunks
      let ratio := if 0 < total then changedWeight ccs / total else 1
      let important := hasImportantChange ccs
      let conf : ℚ :=
        if important then min (98/100) (85/100 + 10/100)
        else min (95/100) (85/100 + ratio * (10/100))
      some ⟨true, conf, ccs, ratio, important⟩

/-- Result dict of `enhanced_content_comparison`
(monitor_service.py lines 463-496). -/
structure Similarity where
  similarity : ℚ
  major_change : Bool
  length_diff : ℚ
deriving DecidableEq, Repr

/-- Verdict dict of `calculate_change_confidence`.  Verdicts other than the
chunk-comparison pass-through carry only `changed` and `confidence`; the
remaining fields model the absent keys as for `ChunkCompareResult`. -/
structure ChangeVerdict where
  changed : Bool
  confidence : ℚ
  changed_chunks : List ChangedChunk
  ratioChanged : ℚ
  has_important_change : Bool
deriving DecidableEq, Repr

/-- A two-key verdict dict `{'changed': c, 'confidence': conf}`. -/
def mkVerdict (c : Bool) (conf : ℚ) : ChangeVerdict :=
  ⟨c, conf, [], 0, false⟩

/-- The chunk-comparison result returned unchanged as the verdict
(monitor_service.py lines 408, 430). -/
def verdictOfChunkResult (r : ChunkCompareResult) : ChangeVerdict :=
  ⟨r.changed, r.confidence, r.changed_chunks, r.ratioChanged, r.has_important_change⟩

/-- `calculate_change_confidence(old_hash_info, new_hash_info, content_similarity)`
(monitor_service.py lines 395-453), translated branch by branch:
identical hashes are terminal (line 397); a chunk comparison with
`changed and confidence >= 0.85` is trusted and returned unchanged (line 406);
otherwise a supplied similarity is consulted with thresholds 0.999 / 0.995
(lines 416-428); non-chunked methods use the original thresholds
(lines 433-449); with no similarity the minimum of the two base confidences is
used (line 452). -/
def calculate_change_confidence (old_info new_info : HashInfo)
    (content_similarity : Option Similarity) : ChangeVerdict :=
  if old_info.hash = new_info.hash then mkVerdict false (99/100)
  else
    match compare_chunk_hashes old_info new_info with
    | some chunk_result =>
        if chunk_result.changed = true ∧ 85/100 ≤ chunk_result.confidence then
          verdictOfChunkResult chunk_result
        else
          match content_similarity with
          | some cs =>
              if chunk_result.has_important_change then
                if cs.similarity < 999/1000 then
                  mkVerdict true (min (chunk_result.confidence * (105/100)) (98/100))
                else mkVerdict false (90/100)
              else
                if cs.similarity < 995/1000 then
                  mkVerdict true chunk_result.confidence
                else mkVerdict false (90/100)
          | none => verdictOfChunkResult chunk_result
    | none =>
        match content_similarity with
        | some cs =>
            if 98/100 < cs.similarity ∧ cs.length_diff < 1/100 then
              mkVerdict false (95/100)
            else if 95/100 < cs.similarity then
              mkVerdict true (min old_info.confidence new_info.confidence * (9/10))
            else
              mkVerdict true
                (min (min old_info.confidence new_info.confidence * (11/10)) (99/100))
        | none => mkVerdict true (min old_info.confidence new_info.confidence)

/-- Opcode tags produced by `difflib.SequenceMatcher.get_opcodes`. -/
inductive Tag
  | equal
  | delete
  | insert
  | replace
deriving DecidableEq, Repr

/-- One opcode `(tag, i1, i2, j1, j2)` of `difflib.SequenceMatcher`. -/
structure Opcode where
  tag : Tag
  i1 : ℕ
  i2 : ℕ
  j1 : ℕ
  j2 : ℕ
deriving DecidableEq, Repr

/-- The pieces of `difflib` the monitor uses, modelled as abstract functions
(the library is external to the repository): `lineSim` is
`SequenceMatcher(None, old.splitlines(), new.splitlines()).ratio()` on full
texts (monitor_service.py line 479-480), `charSim` is
`SequenceMatcher(None, old, new).ratio()` (line 486-487), and `opcodes` is
`SequenceMatcher(None, old_lines, new_lines).get_opcodes()` (line 572, 584). -/
structure Matcher where
  lineSim : String → String → ℚ
  charSim : String → String → ℚ
  opcodes : List String → List String → List Opcode

/-- `enhanced_content_comparison(old_content, new_content)`
(monitor_service.py lines 456-496): empty inputs compare equal; a length
difference above 30% of the longer text is a definite major change with
similarity forced to 0; otherwise the line-level `difflib` ratio is used,
taking the larger of line- and character-level ratios for inputs shorter than
1000 characters, and `major_change = similarity < 0.7 or length_diff > 0.2`. -/
def enhanced_content_comparison (m : Matcher) (old_content new_content : String) :
    Similarity :=
  let old_len := old_content.length
  let new_len := new_content.length
  let max_len := max old_len new_len
  if max_len = 0 then ⟨1, false, 0⟩
  else
    let length_diff : ℚ := (((old_len : ℤ) - (new_len : ℤ)).natAbs : ℚ) / (max_len : ℚ)
    if 3/10 < length_diff then ⟨0, true, length_diff⟩
    else
      let sim0 := m.lineSim old_content new_content
      let sim := if max_len < 1000 then max sim0 (m.charSim old_content new_content) else sim0
      ⟨sim, decide (sim < 7/10) || decide (2/10 < length_diff), length_diff⟩

/-- The external hashing and normalization collaborators used by
`generate_position_aware_hash`: `md5` models `hashlib.md5(...).hexdigest()`
and `normalize` models `normalize_javascript_content` (whose regex
substitutions run in Python's `re` library; the spec treats the normalizer as
a black box). -/
structure Hashing where
  md5 : String → String
  normalize : String → String

/-- Python `range(0, n, step)` for `step > 0`. -/
def pyRange (n step : ℕ) : List ℕ :=
  (List.range ((n + step - 1) / step)).map (· * step)

/-- Python slice `s[i : i + len]`. -/
def pySlice (s : String) (i len : ℕ) : String :=
  String.mk ((s.toList.drop i).take len)

/-- The chunk-building loop of `generate_position_aware_hash`
(monitor_service.py lines 295-319): for each window start, take a
`chunk_size`-character window, skip it when shorter than 100 characters,
otherwise hash its normalized content and weight it 3.0 / 2.0 / 1.0 by the
number of chunks kept so far. -/
def buildChunks (h : Hashing) (content : String) (chunk_size : ℕ) :
    List ℕ → ℕ → List Chunk
  | [], _ => []
  | i :: rest, kept =>
      let chunk := pySlice content i chunk_size
      if chunk.length < 100 then buildChunks h content chunk_size rest kept
      else
        let chunk_hash := h.md5 (h.normalize chunk)
        let weight : ℚ := if kept = 0 then 3 else if kept = 1 then 2 else 1
        ⟨i, i + chunk.length, chunk_hash, weight⟩ ::
          buildChunks h content chunk_size rest (kept + 1)

/-- `generate_position_aware_hash(js_content, chunk_size=2000)`
(monitor_service.py lines 276-338; this second definition shadows the
1500-chunk variant at lines 208-274).  Inputs of at most `chunk_size`
characters are hashed whole (`simple_content`, confidence 0.9); longer inputs
are split into windows starting every `chunk_size // 2` characters, and the
combined hash is the hash of each window hash repeated `int(weight)` times. -/
def generate_position_aware_hash (h : Hashing) (js_content : String)
    (chunk_size : ℕ) : HashInfo :=
  if js_content.length ≤ chunk_size then
    ⟨h.md5 js_content, HashMethod.simple_content, 9/10, 1, []⟩
  else
    let starts := pyRange js_content.length (chunk_size / 2)
    let cds := buildChunks h js_content chunk_size starts 0
    let weighted := (cds.map (fun c => List.replicate c.weight.floor.toNat c.hash)).flatten
    ⟨h.md5 (String.join weighted), HashMethod.position_aware_chunked, 92/100,
      cds.length, cds⟩

/-- The deletion loop of `ContentStorage.clean_old_versions`
(content_storage.py lines 71-87): each candidate is removed independently;
`removeOk` tells which `os.remove` calls succeed.  Returns the number of
successful deletions and the list of candidates that survived a failed
deletion. -/
def pruneLoop (removeOk : String → Bool) : List String → ℕ × List String
  | [] => (0, [])
  | f :: rest =>
      let r := pruneLoop removeOk rest
      if removeOk f then (r.1 + 1, r.2) else (r.1, f :: r.2)

/-- `sorted(os.listdir(url_dir), reverse=True)` (content_storage.py line 66):
filenames in descending lexicographic order; with the fixed-width timestamp
prefix of `store_content` this is most-recent-first. -/
def sortDesc (files : List String) : List String :=
  List.insertionSort (fun a b : String => b ≤ a) files

/-- `ContentStorage.clean_old_versions(url_id, versions_to_keep)`
(content_storage.py lines 60-88), with the directory listing passed in as
`dir` and the filesystem delete modelled by `removeOk`.  Returns the
`deleted_count` the Python function returns, paired with the resulting
directory contents (the kept newest files plus any candidates whose deletion
failed). -/
def clean_old_versions (removeOk : String → Bool) (dir : List String)
    (versions_to_keep : ℕ) : ℕ × List String :=
  let files := sortDesc dir
  if versions_to_keep < files.length then
    let r := pruneLoop removeOk (files.drop versions_to_keep)
    (r.1, files.take versions_to_keep ++ r.2)
  else (0, files)

/-- Python `str.splitlines()` on the line terminators the monitor's inputs
contain (`\n`, `\r`, `\r\n`): no trailing empty line is produced for a
terminated final line, and the empty string yields no lines. -/
def splitlinesAux : List Char → List Char → List (List Char)
  | [], [] => []
  | [], acc => [acc.reverse]
  | '\r' :: '\n' :: rest, acc => acc.reverse :: splitlinesAux rest []
  | '\n' :: rest, acc => acc.reverse :: splitlinesAux rest []
  | '\r' :: rest, acc => acc.reverse :: splitlinesAux rest []
  | c :: rest, acc => splitlinesAux rest (c :: acc)

/-- `s.splitlines()` as a list of strings. -/
def pySplitlines (s : String) : List String :=
  (splitlinesAux s.toList []).map fun cs => String.mk cs

/-- `line.rstrip('\r\n')` (monitor_service.py lines 567-568). -/
def rstripCRLF (s : String) : String :=
  String.mk (s.toList.reverse.dropWhile (fun c => c = '\n' || c = '\r')).reverse

/-- The per-line visibility/significance test used in every branch of
`generate_chunk_diff` (monitor_service.py lines 589, 596, 605, 615, 623):
`line_content.strip() and not line_content.strip().startswith('//')`. -/
def significantLine (s : String) : Bool :=
  s.trim ≠ "" && !(s.trim.startsWith "//")

/-- The structured content of one rendered diff line.  The source emits HTML
strings; the embedding keeps the data those strings carry (chunk header,
context line, removed line, added line, with the `changeN` anchor id and the
line number). -/
inductive DiffEvent
  | header (chunkNumber : ℕ)
  | context (lineNumber : ℕ) (content : String)
  | removed (changeId : ℕ) (lineNumber : ℕ) (content : String)
  | added (changeId : ℕ) (lineNumber : ℕ) (content : String)
deriving DecidableEq, Repr

/-- How one line is rendered: as context (`equal` opcodes), as a removed line
(`delete`/`replace`), or as an added line (`insert`/`replace`). -/
inductive LineKind
  | ctx
  | rem
  | add
deriving DecidableEq, Repr

/-- The accumulator of `generate_chunk_diff`'s opcode loop: the emitted
events (most recent first), the `significant_changes` flag, and the
`change_id` / `line_number` counters (monitor_service.py lines 575-579). -/
structure ChunkDiffState where
  events : List DiffEvent
  significant : Bool
  changeId : ℕ
  lineNumber : ℕ
deriving DecidableEq, Repr

/-- Processing of one line inside an opcode of `generate_chunk_diff`
(monitor_service.py lines 585-627): an insignificant line is skipped (but
still advances `line_number`); a significant context line is emitted; a
significant removed/added line is emitted with the current `change_id`, sets
the `significant_changes` flag and advances `change_id`. -/
def processLine (k : LineKind) (st : ChunkDiffState) (line : String) : ChunkDiffState :=
  if significantLine line then
    match k with
    | LineKind.ctx =>
        { st with events := DiffEvent.context st.lineNumber line :: st.events,
                  lineNumber := st.lineNumber + 1 }
    | LineKind.rem =>
        { st with events := DiffEvent.removed st.changeId st.lineNumber line :: st.events,
                  significant := true, changeId := st.changeId + 1,
                  lineNumber := st.lineNumber + 1 }
    | LineKind.add =>
        { st with events := DiffEvent.added st.changeId st.lineNumber line :: st.events,
                  significant := true, changeId := st.changeId + 1,
                  lineNumber := st.lineNumber + 1 }
  else { st with lineNumber := st.lineNumber + 1 }

/-- Python `lines[a:b]` = the lines a `for i in range(a, b): lines[i]` loop
visits when the opcode bounds are within range. -/
def slice (l : List String) (a b : ℕ) : List String :=
  (l.drop a).take (b - a)

/-- Processing of one opcode of `generate_chunk_diff`
(monitor_service.py lines 584-627): `equal` renders old lines as context,
`delete` old lines as removed, `insert` new lines as added, and `replace`
first the old lines as removed then the new lines as added. -/
def processOpcode (old_lines new_lines : List String) (st : ChunkDiffState)
    (op : Opcode) : ChunkDiffState :=
  match op.tag with
  | Tag.equal => (slice old_lines op.i1 op.i2).foldl (processLine LineKind.ctx) st
  | Tag.delete => (slice old_lines op.i1 op.i2).foldl (processLine LineKind.rem) st
  | Tag.insert => (slice new_lines op.j1 op.j2).foldl (processLine LineKind.add) st
  | Tag.replace =>
      (slice new_lines op.j1 op.j2).foldl (processLine LineKind.add)
        ((slice old_lines op.i1 op.i2).foldl (processLine LineKind.rem) st)

/-- `generate_chunk_diff(old_chunk, new_chunk, chunk_number)`
(monitor_service.py lines 564-629).  Returns the rendered events (`none`
when no significant change was found, mirroring
`''.join(chunk_html) if significant_changes else None`) together with the
`significant_changes` flag.  `change_id` starts at
`(chunk_number - 1) * 1000 + 1` and a chunk header is emitted for chunks
after the first. -/
def generate_chunk_diff (m : Matcher) (old_chunk new_chunk : String)
    (chunk_number : ℕ) : Option (List DiffEvent) × Bool :=
  let old_lines := (pySplitlines old_chunk).map rstripCRLF
  let new_lines := (pySplitlines new_chunk).map rstripCRLF
  let init : ChunkDiffState :=
    ⟨if 1 < chunk_number then [DiffEvent.header chunk_number] else [],
      false, (chunk_number - 1) * 1000 + 1, 1⟩
  let fin := (m.opcodes old_lines new_lines).foldl (processOpcode old_lines new_lines) init
  (if fin.significant then some fin.events.reverse else none, fin.significant)

/-- The accumulation loop of `chunk_large_content`
(monitor_service.py lines 544-560): lines are appended to the current chunk
until adding one would exceed `max_chunk_size` (and the current chunk is
nonempty), at which point the chunk is flushed. -/
def chunkLoop (maxSize : ℕ) : List String → List String → ℕ → List String
  | [], cur, _ => if cur.isEmpty then [] else [String.intercalate "\n" cur.reverse]
  | line :: rest, cur, size =>
      let lineSize := line.length + 1
      if maxSize < size + lineSize ∧ ¬ cur.isEmpty then
        String.intercalate "\n" cur.reverse :: chunkLoop maxSize rest [line] lineSize
      else chunkLoop maxSize rest (line :: cur) (size + lineSize)

/-- `chunk_large_content(content, max_chunk_size=50000)`
(monitor_service.py lines 539-562): content at most `max_chunk_size` long is
a single chunk; otherwise it is split on newlines into line-aligned chunks. -/
def chunk_large_content (content : String) (max_chunk_size : ℕ) : List String :=
  if content.length ≤ max_chunk_size then [content]
  else chunkLoop max_chunk_size (content.splitOn "\n") [] 0

/-- The structured diff report of `generate_enhanced_html_diff`: the
per-chunk event lists plus the aggregate counts the HTML header shows
(counted from the rendered spans; the `modified` count is always 0 because no
rendered span carries that class). -/
structure DiffReport where
  chunks : List (List DiffEvent)
  additions : ℕ
  deletions : ℕ
deriving DecidableEq, Repr

/-- Number of added-line spans in a chunk (`chunk.count('class="added"')`,
monitor_service.py line 810). -/
def countAdded (evs : List DiffEvent) : ℕ :=
  evs.countP fun e => match e with | DiffEvent.added _ _ _ => true | _ => false

/-- Number of removed-line spans in a chunk (`chunk.count('class="removed"')`,
monitor_service.py line 811). -/
def countRemoved (evs : List DiffEvent) : ℕ :=
  evs.countP fun e => match e with | DiffEvent.removed _ _ _ => true | _ => false

/-- Python truthiness of a chunk diff (`if chunk_diff:` at line 650): not
`None` and a nonempty rendering. -/
def chunkDiffTruthy (o : Option (List DiffEvent)) : Bool :=
  match o with
  | some evs => !evs.isEmpty
  | none => false

/-- `generate_enhanced_html_diff(old_content, new_content, ...)`
(monitor_service.py lines 631-868), reduced to its data content: both texts
are split into chunks of at most 50000 bytes, corresponding chunk pairs are
diffed independently, and `None` is returned when no chunk pair produced a
significant change; otherwise the report collects the per-chunk events and
the aggregate counts. -/
def generate_enhanced_html_diff (m : Matcher) (old_content new_content : String) :
    Option DiffReport :=
  let old_chunks := chunk_large_content old_content 50000
  let new_chunks := chunk_large_content new_content 50000
  let results := (List.range (max old_chunks.length new_chunks.length)).map fun i =>
    generate_chunk_diff m (old_chunks.getD i "") (new_chunks.getD i "") (i + 1)
  let all_diffs := results.filterMap fun r =>
    match r.1 with
    | some evs => if evs.isEmpty then none else some evs
    | none => none
  let significant := results.any fun r => chunkDiffTruthy r.1 && r.2
  if significant then
    some ⟨all_diffs, (all_diffs.map countAdded).sum, (all_diffs.map countRemoved).sum⟩
  else none

/-- The escalation check of `monitor_single_url`
(monitor_service.py line 978): additional full-text verification is done
exactly when the first-pass confidence is below 0.80. -/
def monitorNeedsSimilarityCheck (r : ChangeVerdict) : Bool :=
  r.confidence < 80/100

/-- `should_do_additional_verification(change_result)`
(monitor_service.py lines 157-169): threshold 0.75, lowered to 0.70 when
`has_important_change` is set.  This helper is defined in the source but
never called; the live escalation check is `monitorNeedsSimilarityCheck`. -/
def should_do_additional_verification (r : ChangeVerdict) : Bool :=
  r.confidence < (if r.has_important_change then 70/100 else 75/100)

/-- Outcome of one monitoring cycle: the `success` / `changed` /
`confidence` / `method` keys of the dict `monitor_single_url` returns. -/
structure MonitorResult where
  success : Bool
  changed : Bool
  confidence : ℚ
  method : HashMethod
deriving DecidableEq, Repr

/-- The change-detection core of `monitor_single_url`
(monitor_service.py lines 953-1077), as a pure function of its inputs:
`old_info` is the stored fingerprint (hash `""` models a missing/None
`last_hash` on a first check, which has the same Python truthiness),
`current_info` the freshly computed one, `previous_content_pre` the stored
previous snapshot consulted for low-confidence verification (line 981),
`previous_content_post` the previous snapshot read back after storing the
current content (line 1015), and `content` the current normalized text.
Classification runs only when a previous hash exists; a verdict below
confidence 0.80 is re-derived with a full-text comparison when a previous
snapshot exists; an unchanged verdict returns immediately; otherwise the diff
renderer decides the final `changed` flag. -/
def monitor_single_url_core (m : Matcher) (old_info current_info : HashInfo)
    (previous_content_pre previous_content_post : Option String)
    (content : String) : MonitorResult :=
  if old_info.hash ≠ "" then
    let r0 := calculate_change_confidence old_info current_info none
    let r :=
      if monitorNeedsSimilarityCheck r0 then
        match previous_content_pre with
        | some prev =>
            calculate_change_confidence old_info current_info
              (some (enhanced_content_comparison m prev content))
        | none => r0
      else r0
    if r.changed = false then
      ⟨true, false, r.confidence, current_info.method⟩
    else
      match previous_content_post with
      | some prev =>
          match generate_enhanced_html_diff m prev content with
          | some _ => ⟨true, true, r.confidence, current_info.method⟩
          | none => ⟨true, false, r.confidence, current_info.method⟩
      | none => ⟨true, true, r.confidence, current_info.method⟩
  else
    ⟨true, false, current_info.confidence, current_info.method⟩

/-- The lines an opcode marks as differing: old-side lines of
`delete`/`replace` spans and new-side lines of `insert`/`replace` spans
(`equal` spans differ on neither side). -/
def opLines (op : Opcode) (old_lines new_lines : List String) : List String :=
  match op.tag with
  | Tag.equal => []
  | Tag.delete => slice old_lines op.i1 op.i2
  | Tag.insert => slice new_lines op.j1 op.j2
  | Tag.replace => slice old_lines op.i1 op.i2 ++ slice new_lines op.j1 op.j2

/-- The line list `generate_chunk_diff` derives from the `i`-th chunk of a
text (empty chunk when the index is past the end, as in
`generate_enhanced_html_diff` lines 646-647). -/
def chunkLines (text : String) (i : ℕ) : List String :=
  (pySplitlines ((chunk_large_content text 50000).getD i "")).map rstripCRLF

/-- All differing lines of the `i`-th chunk pair of a rendered diff, as
determined by the matcher's opcodes. -/
def differingLines (m : Matcher) (old_content new_content : String) (i : ℕ) :
    List String :=
  ((m.opcodes (chunkLines old_content i) (chunkLines new_content i)).map
    (fun op => opLines op (chunkLines old_content i) (chunkLines new_content i))).flatten

/-- A concrete stand-in for the difflib collaborator, used only to
instantiate theorems at concrete inputs. -/
def trivMatcher : Matcher := ⟨fun _ _ => 1, fun _ _ => 1, fun _ _ => []⟩

/-- A concrete stand-in for the hashing/normalizer collaborators, used only
to instantiate theorems at concrete inputs. -/
def dummyHashing : Hashing := ⟨fun _ => "", fun s => s⟩

/-- Chunked fingerprint with an adversarially weighted chunk list
(weight 1001). -/
def cxOldTen : HashInfo :=
  ⟨"x", HashMethod.position_aware_chunked, 92/100, 1, [⟨0, 1, "a", 1001⟩]⟩

/-- Chunked fingerprint with a negative chunk weight (-1000); pairs with
`cxOldTen` to drive the classifier's confidence below 0. -/
def cxNewTen : HashInfo :=
  ⟨"y", HashMethod.position_aware_chunked, 92/100, 1, [⟨0, 1, "b", -1000⟩]⟩

/-- Chunked fingerprint (weight 7) for the escalation-threshold
counterexample. -/
def cxOldOne : HashInfo :=
  ⟨"x", HashMethod.position_aware_chunked, 92/100, 1, [⟨0, 1, "a", 7⟩]⟩

/-- Chunked fingerprint with negative weight (-3); pairs with `cxOldOne`
to give a chunk verdict of confidence exactly 0.775. -/
def cxNewOne : HashInfo :=
  ⟨"y", HashMethod.position_aware_chunked, 92/100, 1, [⟨0, 1, "b", -3⟩]⟩

/-- Chunked fingerprint (weight 3) for the similarity-influence
counterexample. -/
def cxOldNine : HashInfo :=
  ⟨"x", HashMethod.position_aware_chunked, 92/100, 1, [⟨0, 1, "a", 3⟩]⟩

/-- Chunked fingerprint with negative weight (-2); pairs with `cxOldNine` to
give a chunk verdict of confidence 0.65, below the 0.85 trust gate. -/
def cxNewNine : HashInfo :=
  ⟨"y", HashMethod.position_aware_chunked, 92/100, 1, [⟨0, 1, "b", -2⟩]⟩

/-- Fingerprint with hash `"h"`; paired with `cxNewThree` (same hash) for the
hash-equal counterexample. -/
def cxOldThree : HashInfo := ⟨"h", HashMethod.simple_content, 9/10, 1, []⟩

/-- Second fingerprint with the identical hash `"h"`. -/
def cxNewThree : HashInfo := ⟨"h", HashMethod.simple_content, 9/10, 1, []⟩

/-- Well-formed chunked fingerprint (nonnegative weights) for witnesses. -/
def wOldTwo : HashInfo :=
  ⟨"p", HashMethod.position_aware_chunked, 92/100, 1, [⟨0, 1, "a", 3⟩]⟩

/-- Well-formed chunked fingerprint differing from `wOldTwo` in its chunk
hash. -/
def wNewTwo : HashInfo :=
  ⟨"q", HashMethod.position_aware_chunked, 92/100, 1, [⟨0, 1, "b", 2⟩]⟩

/-- Two-chunk well-formed fingerprint for the similarity-independence
witness. -/
def wOldNine : HashInfo :=
  ⟨"p", HashMethod.position_aware_chunked, 92/100, 2, [⟨0, 1, "a", 3⟩, ⟨1, 2, "c", 2⟩]⟩

/-- Two-chunk well-formed fingerprint differing from `wOldNine` in the first
chunk hash. -/
def wNewNine : HashInfo :=
  ⟨"q", HashMethod.position_aware_chunked, 92/100, 2, [⟨0, 1, "b", 3⟩, ⟨1, 2, "c", 2⟩]⟩

/-- Well-formed chunked fingerprint for the escalation witness. -/
def wOldOne : HashInfo :=
  ⟨"p", HashMethod.position_aware_chunked, 92/100, 1, [⟨0, 1, "a", 3⟩]⟩

/-- Well-formed chunked fingerprint differing from `wOldOne`. -/
def wNewOne : HashInfo :=
  ⟨"q", HashMethod.position_aware_chunked, 92/100, 1, [⟨0, 1, "b", 3⟩]⟩

/-- The legacy hash-info dict built on a first-ever check
(monitor_service.py lines 964-970): no stored hash, method `legacy`,
confidence 0.5. -/
def firstRunInfo : HashInfo := ⟨"", HashMethod.legacy, 1/2, 0, []⟩

/-- A freshly computed fingerprint for the first-check witness. -/
def firstRunCurrent : HashInfo := ⟨"h1", HashMethod.simple_content, 9/10, 1, []⟩

/-- A 2000-character text: exactly the chunking threshold. -/
def textAtThreshold : String := String.mk (List.replicate 2000 'a')

/-- A 2001-character text: one character past the chunking threshold. -/
def textPastThreshold : String := String.mk (List.replicate 2001 'a')

/-- Seven stored snapshot filenames (timestamp-prefixed) for the retention
witness. -/
def sevenFiles : List String :=
  ["t1_h", "t2_h", "t3_h", "t4_h", "t5_h", "t6_h", "t7_h"]

theorem mem_of_getElem_eq_some {α : Type} {l : List α} {i : ℕ} {a : α}
    (h : l[i]? = some a) : a ∈ l := by
  obtain ⟨hlt, rfl⟩ := List.getElem?_eq_some.mp h
  exact List.getElem_mem hlt

theorem changedChunkAt_weight_mem (o n : List Chunk) (i : ℕ) (cc : ChangedChunk)
    (h : changedChunkAt o n i = some cc) :
    ∃ c ∈ o ++ n, cc.weight = c.weight := by
  unfold changedChunkAt at h
  cases ho : o[i]? with
  | none =>
      cases hn : n[i]? with
      | none => rw [ho, hn] at h; cases h
      | some c =>
          rw [ho, hn] at h
          injection h with h2
          subst h2
          exact ⟨c, List.mem_append.mpr (Or.inr (mem_of_getElem_eq_some hn)), rfl⟩
  | some c =>
      cases hn : n[i]? with
      | none =>
          rw [ho, hn] at h
          injection h with h2
          subst h2
          exact ⟨c, List.mem_append.mpr (Or.inl (mem_of_getElem_eq_some ho)), rfl⟩
      | some d =>
          rw [ho, hn] at h
          simp only [] at h
          by_cases hne : c.hash ≠ d.hash
          · rw [if_pos hne] at h
            injection h with h2
            subst h2
            exact ⟨d, List.mem_append.mpr (Or.inr (mem_of_getElem_eq_some hn)), rfl⟩
          · rw [if_neg hne] at h; cases h

theorem changedChunks_weight_mem (o n : List Chunk) :
    ∀ cc ∈ changedChunks o n, ∃ c ∈ o ++ n, cc.weight = c.weight := by
  intro cc hcc
  obtain ⟨i, _, hi⟩ := List.mem_filterMap.mp hcc
  exact changedChunkAt_weight_mem o n i cc hi

theorem changedWeight_nonneg (o n : List Chunk)
    (hw : ∀ c ∈ o ++ n, 0 ≤ c.weight) :
    0 ≤ changedWeight (changedChunks o n) := by
  unfold changedWeight
  apply List.sum_nonneg
  intro x hx
  obtain ⟨cc, hcc, rfl⟩ := List.mem_map.mp hx
  obtain ⟨c, hc, he⟩ := changedChunks_weight_mem o n cc hcc
  rw [he]
  exact hw c hc

theorem compare_chunk_hashes_methods (old new : HashInfo) (r : ChunkCompareResult)
    (h : compare_chunk_hashes old new = some r) :
    old.method = HashMethod.position_aware_chunked ∧
      new.method = HashMethod.position_aware_chunked := by
  unfold compare_chunk_hashes at h
  by_cases hg : old.method ≠ HashMethod.position_aware_chunked ∨
      new.method ≠ HashMethod.position_aware_chunked
  · rw [if_pos hg] at h; cases h
  · push_neg at hg; exact hg

theorem compare_chunk_hashes_nochange (old new : HashInfo)
    (ho : old.method = HashMethod.position_aware_chunked)
    (hn : new.method = HashMethod.position_aware_chunked)
    (hcc : changedChunks old.chunk_details new.chunk_details = []) :
    compare_chunk_hashes old new = some ⟨false, 98/100, [], 0, false⟩ := by
  unfold compare_chunk_hashes
  rw [if_neg (by simp [ho, hn]), if_pos hcc]

theorem compare_chunk_hashes_spec (old new : HashInfo)
    (ho : old.method = HashMethod.position_aware_chunked)
    (hn : new.method = HashMethod.position_aware_chunked)
    (hne : changedChunks old.chunk_details new.chunk_details ≠ []) :
    compare_chunk_hashes old new = some
      ⟨true,
        (if hasImportantChange (changedChunks old.chunk_details new.chunk_details)
         then min (98/100) (85/100 + 10/100)
         else min (95/100) (85/100 +
           (if 0 < totalWeight old.chunk_details new.chunk_details
            then changedWeight (changedChunks old.chunk_details new.chunk_details) /
              totalWeight old.chunk_details new.chunk_details
            else 1) * (10/100))),
        changedChunks old.chunk_details new.chunk_details,
        (if 0 < totalWeight old.chunk_details new.chunk_details
         then changedWeight (changedChunks old.chunk_details new.chunk_details) /
           totalWeight old.chunk_details new.chunk_details
         else 1),
        hasImportantChange (changedChunks old.chunk_details new.chunk_details)⟩ := by
  unfold compare_chunk_hashes
  rw [if_neg (by simp [ho, hn]), if_neg hne]

theorem ratio_nonneg (old new : HashInfo)
    (hw : ∀ c ∈ old.chunk_details ++ new.chunk_details, 0 ≤ c.weight) :
    0 ≤ (if 0 < totalWeight old.chunk_details new.chunk_details
         then changedWeight (changedChunks old.chunk_details new.chunk_details) /
           totalWeight old.chunk_details new.chunk_details
         else 1) := by
  split
  · exact div_nonneg (changedWeight_nonneg _ _ hw) (by linarith)
  · norm_num

theorem compare_conf_lower (old new : HashInfo) (r : ChunkCompareResult)
    (h : compare_chunk_hashes old new = some r)
    (hw : ∀ c ∈ old.chunk_details ++ new.chunk_details, 0 ≤ c.weight) :
    85/100 ≤ r.confidence := by
  obtain ⟨ho, hn⟩ := compare_chunk_hashes_methods old new r h
  by_cases hcc : changedChunks old.chunk_details new.chunk_details = []
  · rw [compare_chunk_hashes_nochange old new ho hn hcc] at h
    injection h with h2
    subst h2
    norm_num
  · rw [compare_chunk_hashes_spec old new ho hn hcc] at h
    injection h with h2
    subst h2
    show 85/100 ≤ (if hasImportantChange _ then _ else _)
    split
    · norm_num
    · apply le_min (by norm_num)
      have h0 := ratio_nonneg old new hw
      nlinarith

theorem compare_conf_upper (old new : HashInfo) (r : ChunkCompareResult)
    (h : compare_chunk_hashes old new = some r) :
    r.confidence ≤ 98/100 := by
  obtain ⟨ho, hn⟩ := compare_chunk_hashes_methods old new r h
  by_cases hcc : changedChunks old.chunk_details new.chunk_details = []
  · rw [compare_chunk_hashes_nochange old new ho hn hcc] at h
    injection h with h2
    subst h2
    norm_num
  · rw [compare_chunk_hashes_spec old new ho hn hcc] at h
    injection h with h2
    subst h2
    show (if hasImportantChange _ then _ else _) ≤ 98/100
    split
    · exact min_le_left _ _
    · exact le_trans (min_le_left _ _) (by norm_num)

theorem changedChunks_single (ha hb : String) (w₁ w₂ : ℚ) (hab : ha ≠ hb) :
    changedChunks [⟨0, 1, ha, w₁⟩] [⟨0, 1, hb, w₂⟩] =
      [⟨0, ChangeType.modified, w₂, some 0, some 1⟩] := by
  simp [changedChunks, changedChunkAt, hab, List.range_succ, List.filterMap_cons]

theorem calc_hash_eq (old new : HashInfo) (sim : Option Similarity)
    (h : old.hash = new.hash) :
    calculate_change_confidence old new sim = mkVerdict false (99/100) := by
  unfold calculate_change_confidence
  rw [if_pos h]

theorem calc_none_eq (old new : HashInfo) (r : ChunkCompareResult)
    (hh : old.hash ≠ new.hash) (hr : compare_chunk_hashes old new = some r) :
    calculate_change_confidence old new none = verdictOfChunkResult r := by
  unfold calculate_change_confidence
  rw [if_neg hh]
  simp only [hr]
  split
  · rfl
  · rfl

theorem calc_chunk_gate (old new : HashInfo) (r : ChunkCompareResult)
    (sim : Option Similarity)
    (hh : old.hash ≠ new.hash) (hr : compare_chunk_hashes old new = some r)
    (hgate : r.changed = true ∧ 85/100 ≤ r.confidence) :
    calculate_change_confidence old new sim = verdictOfChunkResult r := by
  unfold calculate_change_confidence
  rw [if_neg hh]
  simp only [hr]
  rw [if_pos hgate]

theorem calc_chunk_sim (old new : HashInfo) (r : ChunkCompareResult)
    (cs : Similarity)
    (hh : old.hash ≠ new.hash) (hr : compare_chunk_hashes old new = some r)
    (hgate : ¬(r.changed = true ∧ 85/100 ≤ r.confidence)) :
    calculate_change_confidence old new (some cs) =
      (if r.has_important_change = true then
        (if cs.similarity < 999/1000 then
          mkVerdict true (min (r.confidence * (105/100)) (98/100))
        else mkVerdict false (90/100))
      else
        (if cs.similarity < 995/1000 then mkVerdict true r.confidence
         else mkVerdict false (90/100))) := by
  unfold calculate_change_confidence
  rw [if_neg hh]
  simp only [hr]
  rw [if_neg hgate]

theorem calc_nonchunk_sim (old new : HashInfo) (cs : Similarity)
    (hh : old.hash ≠ new.hash) (hr : compare_chunk_hashes old new = none) :
    calculate_change_confidence old new (some cs) =
      (if 98/100 < cs.similarity ∧ cs.length_diff < 1/100 then
        mkVerdict false (95/100)
      else if 95/100 < cs.similarity then
        mkVerdict true (min old.confidence new.confidence * (9/10))
      else mkVerdict true
        (min (min old.confidence new.confidence * (11/10)) (99/100))) := by
  unfold calculate_change_confidence
  rw [if_neg hh]
  simp only [hr]

theorem calc_nonchunk_none (old new : HashInfo)
    (hh : old.hash ≠ new.hash) (hr : compare_chunk_hashes old new = none) :
    calculate_change_confidence old new none =
      mkVerdict true (min old.confidence new.confidence) := by
  unfold calculate_change_confidence
  rw [if_neg hh]
  simp only [hr]

theorem calc_sim_highsim (old new : HashInfo) (r : ChunkCompareResult)
    (cs : Similarity)
    (hh : old.hash ≠ new.hash) (hr : compare_chunk_hashes old new = some r)
    (hgate : ¬(r.changed = true ∧ 85/100 ≤ r.confidence))
    (himp : r.has_important_change = false)
    (hs : ¬(cs.similarity < 995/1000)) :
    calculate_change_confidence old new (some cs) = mkVerdict false (90/100) := by
  rw [calc_chunk_sim old new r cs hh hr hgate, himp]
  rw [if_neg Bool.false_ne_true, if_neg hs]

theorem compare_single_modified (H₁ H₂ ha hb : String) (c₁ c₂ : ℚ) (k₁ k₂ : ℕ)
    (w₁ w₂ : ℚ) (hab : ha ≠ hb) (hw2 : w₂ < 2) (htot : 0 < w₁ + w₂) :
    compare_chunk_hashes
        ⟨H₁, HashMethod.position_aware_chunked, c₁, k₁, [⟨0, 1, ha, w₁⟩]⟩
        ⟨H₂, HashMethod.position_aware_chunked, c₂, k₂, [⟨0, 1, hb, w₂⟩]⟩ =
      some ⟨true, min (95/100) (85/100 + w₂ / (w₁ + w₂) * (10/100)),
        [⟨0, ChangeType.modified, w₂, some 0, some 1⟩], w₂ / (w₁ + w₂), false⟩ := by
  have hcc := changedChunks_single ha hb w₁ w₂ hab
  have h2 : ¬ (2 : ℚ) ≤ w₂ := not_le.mpr hw2
  have himp : hasImportantChange [⟨0, ChangeType.modified, w₂, some 0, some 1⟩]
      = false := by
    simp [hasImportantChange, h2]
  have ht : totalWeight [(⟨0, 1, ha, w₁⟩ : Chunk)] [⟨0, 1, hb, w₂⟩] = w₁ + w₂ := by
    simp [totalWeight]
  have hcw : changedWeight [⟨0, ChangeType.modified, w₂, some 0, some 1⟩] = w₂ := by
    simp [changedWeight]
  have hspec := compare_chunk_hashes_spec
    ⟨H₁, HashMethod.position_aware_chunked, c₁, k₁, [⟨0, 1, ha, w₁⟩]⟩
    ⟨H₂, HashMethod.position_aware_chunked, c₂, k₂, [⟨0, 1, hb, w₂⟩]⟩
    rfl rfl (show changedChunks [⟨0, 1, ha, w₁⟩] [⟨0, 1, hb, w₂⟩] ≠ [] by
      rw [hcc]; simp)
  dsimp only at hspec
  rw [hcc, ht, hcw, himp, if_pos htot] at hspec
  simpa using hspec

/-- C6: classifying a fingerprint against itself (identical hash values)
yields `changed=false` with confidence 0.99 ≥ 0.99, terminally: the verdict
is the constant two-key dict, independent of any supplied similarity result,
so no chunk comparison or full-text similarity work contributes to it. -/
theorem C6_noop_round_trip (F : HashInfo) (sim : Option Similarity) :
    (calculate_change_confidence F F sim).changed = false ∧
    99/100 ≤ (calculate_change_confidence F F sim).confidence ∧
    calculate_change_confidence F F sim = mkVerdict false (99/100) := by
  unfold calculate_change_confidence
  rw [if_pos rfl]
  exact ⟨rfl, le_refl _, rfl⟩

/-- C5: a first-ever check of a source (no previous hash stored, modelled by
the empty/falsy `last_hash`) reports `changed=false` (baseline established),
never `changed=true`. -/
theorem C5_first_check_baseline (m : Matcher) (old_info current_info : HashInfo)
    (pre post : Option String) (content : String)
    (h : old_info.hash = "") :
    (monitor_single_url_core m old_info current_info pre post content).changed = false ∧
    (monitor_single_url_core m old_info current_info pre post content).success = true := by
  unfold monitor_single_url_core
  rw [if_neg (by simp [h])]
  exact ⟨rfl, rfl⟩

/-- Witness for C5: the concrete first-run environment. -/
theorem C5_witness :
    (monitor_single_url_core trivMatcher firstRunInfo firstRunCurrent none none
        "var a=1;").changed = false ∧
    (monitor_single_url_core trivMatcher firstRunInfo firstRunCurrent none none
        "var a=1;").success = true :=
  C5_first_check_baseline trivMatcher firstRunInfo firstRunCurrent none none
    "var a=1;" rfl

/-- C2: for chunked-vs-chunked fingerprints with at least one changed chunk
(and positive total weight), the chunk comparison computes the change ratio
as summed changed weight over summed weight of all chunks of both lists,
flags an important change exactly when some changed chunk has index ≤ 1 and
weight ≥ 2.0, and returns confidence `min(0.98, 0.85 + 0.10)` when important,
else `min(0.95, 0.85 + 0.10 * changeRatio)`. -/
theorem C2_change_formula (old new : HashInfo)
    (ho : old.method = HashMethod.position_aware_chunked)
    (hn : new.method = HashMethod.position_aware_chunked)
    (hne : changedChunks old.chunk_details new.chunk_details ≠ [])
    (htot : 0 < ((old.chunk_details ++ new.chunk_details).map Chunk.weight).sum) :
    ∃ r, compare_chunk_hashes old new = some r ∧ r.changed = true ∧
      r.ratioChanged =
        ((changedChunks old.chunk_details new.chunk_details).map
          ChangedChunk.weight).sum /
          ((old.chunk_details ++ new.chunk_details).map Chunk.weight).sum ∧
      (r.has_important_change = true ↔
        ∃ cc ∈ changedChunks old.chunk_details new.chunk_details,
          cc.chunk_index ≤ 1 ∧ (2 : ℚ) ≤ cc.weight) ∧
      r.confidence =
        (if r.has_important_change = true then min (98/100) (85/100 + 10/100)
         else min (95/100) (85/100 + (10/100) * r.ratioChanged)) := by
  have htot' : 0 < totalWeight old.chunk_details new.chunk_details := htot
  refine ⟨_, compare_chunk_hashes_spec old new ho hn hne, rfl, ?_, ?_, ?_⟩
  · show (if 0 < totalWeight old.chunk_details new.chunk_details then _ else _) = _
    rw [if_pos htot']
    rfl
  · show hasImportantChange _ = true ↔ _
    simp [hasImportantChange, List.any_eq_true]
  · show (if hasImportantChange _ = true then _ else _) = _
    by_cases himp : hasImportantChange
        (changedChunks old.chunk_details new.chunk_details) = true
    · rw [if_pos himp, if_pos himp]
    · rw [if_neg himp, if_neg himp, mul_comm]

/-- Witness for C2 at a concrete chunked pair with one modified chunk. -/
theorem C2_witness :
    ∃ r, compare_chunk_hashes wOldTwo wNewTwo = some r ∧ r.changed = true ∧
      r.ratioChanged =
        ((changedChunks wOldTwo.chunk_details wNewTwo.chunk_details).map
          ChangedChunk.weight).sum /
          ((wOldTwo.chunk_details ++ wNewTwo.chunk_details).map Chunk.weight).sum ∧
      (r.has_important_change = true ↔
        ∃ cc ∈ changedChunks wOldTwo.chunk_details wNewTwo.chunk_details,
          cc.chunk_index ≤ 1 ∧ (2 : ℚ) ≤ cc.weight) ∧
      r.confidence =
        (if r.has_important_change = true then min (98/100) (85/100 + 10/100)
         else min (95/100) (85/100 + (10/100) * r.ratioChanged)) :=
  C2_change_formula wOldTwo wNewTwo rfl rfl (by decide)
    (by norm_num [wOldTwo, wNewTwo])

/-- C10 counterexample: both input fingerprints have confidence 0.92 ∈ [0,1],
yet a negatively weighted chunk list drives the classifier's verdict
confidence below 0 (to 0.85 - 100.0·0.10 = -99.15). -/
theorem compare_cxTen :
    compare_chunk_hashes cxOldTen cxNewTen =
      some ⟨true, min (95/100) (85/100 + (-1000 : ℚ) / (1001 + -1000) * (10/100)),
        [⟨0, ChangeType.modified, -1000, some 0, some 1⟩],
        (-1000 : ℚ) / (1001 + -1000), false⟩ :=
  compare_single_modified "x" "y" "a" "b" (92/100) (92/100) 1 1 1001 (-1000)
    (by decide) (by norm_num) (by norm_num)

theorem C10_counterexample :
    (0 ≤ cxOldTen.confidence ∧ cxOldTen.confidence ≤ 1) ∧
    (0 ≤ cxNewTen.confidence ∧ cxNewTen.confidence ≤ 1) ∧
    (calculate_change_confidence cxOldTen cxNewTen none).confidence < 0 := by
  refine ⟨⟨by norm_num [cxOldTen], by norm_num [cxOldTen]⟩,
    ⟨by norm_num [cxNewTen], by norm_num [cxNewTen]⟩, ?_⟩
  rw [calc_none_eq cxOldTen cxNewTen _ (by decide) compare_cxTen]
  simp only [verdictOfChunkResult]
  rw [min_eq_right (by norm_num)]
  norm_num

/-- C10 (amended): when both input confidences lie in [0,1] and every chunk
weight is nonnegative (as holds for every engine-generated fingerprint),
every verdict of the change classifier, through any branch, has confidence
in [0,1]. -/
theorem C10_confidence_range (old new : HashInfo) (sim : Option Similarity)
    (ho1 : 0 ≤ old.confidence) (ho2 : old.confidence ≤ 1)
    (hn1 : 0 ≤ new.confidence) (_hn2 : new.confidence ≤ 1)
    (hw : ∀ c ∈ old.chunk_details ++ new.chunk_details, 0 ≤ c.weight) :
    0 ≤ (calculate_change_confidence old new sim).confidence ∧
      (calculate_change_confidence old new sim).confidence ≤ 1 := by
  by_cases hh : old.hash = new.hash
  · rw [calc_hash_eq old new sim hh]
    constructor <;> norm_num [mkVerdict]
  · cases hcr : compare_chunk_hashes old new with
    | some r =>
        have hlow := compare_conf_lower old new r hcr hw
        have hup := compare_conf_upper old new r hcr
        by_cases hgate : r.changed = true ∧ 85/100 ≤ r.confidence
        · rw [calc_chunk_gate old new r sim hh hcr hgate]
          simp only [verdictOfChunkResult]
          exact ⟨by linarith, by linarith⟩
        · cases sim with
          | none =>
              rw [calc_none_eq old new r hh hcr]
              simp only [verdictOfChunkResult]
              exact ⟨by linarith, by linarith⟩
          | some cs =>
              rw [calc_chunk_sim old new r cs hh hcr hgate]
              split
              · split
                · simp only [mkVerdict]
                  exact ⟨le_min (by nlinarith) (by norm_num),
                    le_trans (min_le_right _ _) (by norm_num)⟩
                · simp only [mkVerdict]
                  exact ⟨by norm_num, by norm_num⟩
              · split
                · simp only [mkVerdict]
                  exact ⟨by linarith, by linarith⟩
                · simp only [mkVerdict]
                  exact ⟨by norm_num, by norm_num⟩
    | none =>
        cases sim with
        | none =>
            rw [calc_nonchunk_none old new hh hcr]
            simp only [mkVerdict]
            exact ⟨le_min ho1 hn1, le_trans (min_le_left _ _) ho2⟩
        | some cs =>
            rw [calc_nonchunk_sim old new cs hh hcr]
            split
            · simp only [mkVerdict]
              exact ⟨by norm_num, by norm_num⟩
            · split
              · simp only [mkVerdict]
                constructor
                · exact mul_nonneg (le_min ho1 hn1) (by norm_num)
                · have hm1 : min old.confidence new.confidence ≤ 1 :=
                    le_trans (min_le_left _ _) ho2
                  have hm0 : 0 ≤ min old.confidence new.confidence :=
                    le_min ho1 hn1
                  nlinarith
              · simp only [mkVerdict]
                exact ⟨le_min (mul_nonneg (le_min ho1 hn1) (by norm_num))
                  (by norm_num), le_trans (min_le_right _ _) (by norm_num)⟩

/-- Witness for C10 (amended) at a concrete well-formed chunked pair. -/
theorem C10_witness :
    0 ≤ (calculate_change_confidence wOldTwo wNewTwo none).confidence ∧
      (calculate_change_confidence wOldTwo wNewTwo none).confidence ≤ 1 :=
  C10_confidence_range wOldTwo wNewTwo none (by norm_num [wOldTwo])
    (by norm_num [wOldTwo]) (by norm_num [wNewTwo]) (by norm_num [wNewTwo])
    (by decide)

/-- C9 counterexample: a chunked pair with a changed chunk of negative
weight gives a chunk verdict of confidence 0.65 < 0.85, and the supplied
full-text similarity then changes the classifier's output, so neither
`confidence ≥ 0.85` nor the non-influence of the similarity input holds for
arbitrary chunked fingerprints. -/
theorem compare_cxNine :
    compare_chunk_hashes cxOldNine cxNewNine =
      some ⟨true, min (95/100) (85/100 + (-2 : ℚ) / (3 + -2) * (10/100)),
        [⟨0, ChangeType.modified, -2, some 0, some 1⟩],
        (-2 : ℚ) / (3 + -2), false⟩ :=
  compare_single_modified "x" "y" "a" "b" (92/100) (92/100) 1 1 3 (-2)
    (by decide) (by norm_num) (by norm_num)

theorem C9_counterexample :
    cxOldNine.method = HashMethod.position_aware_chunked ∧
    cxNewNine.method = HashMethod.position_aware_chunked ∧
    cxOldNine.hash ≠ cxNewNine.hash ∧
    changedChunks cxOldNine.chunk_details cxNewNine.chunk_details ≠ [] ∧
    (calculate_change_confidence cxOldNine cxNewNine none).confidence < 85/100 ∧
    (calculate_change_confidence cxOldNine cxNewNine none).changed = true ∧
    (calculate_change_confidence cxOldNine cxNewNine
      (some ⟨1, false, 0⟩)).changed = false := by
  refine ⟨rfl, rfl, by decide, ?_, ?_, ?_, ?_⟩
  · show changedChunks [⟨0, 1, "a", 3⟩] [⟨0, 1, "b", -2⟩] ≠ []
    rw [changedChunks_single "a" "b" 3 (-2) (by decide)]
    simp
  · rw [calc_none_eq cxOldNine cxNewNine _ (by decide) compare_cxNine]
    simp only [verdictOfChunkResult]
    rw [min_eq_right (by norm_num)]
    norm_num
  · rw [calc_none_eq cxOldNine cxNewNine _ (by decide) compare_cxNine]
    rfl
  · have h := calc_sim_highsim cxOldNine cxNewNine _ ⟨1, false, 0⟩ (by decide)
      compare_cxNine
      (by
        intro hgate
        have h2 := hgate.2
        dsimp only at h2
        rw [min_eq_right (by norm_num)] at h2
        norm_num at h2)
      rfl (by norm_num)
    rw [h]
    rfl

/-- C9 (amended): for chunked-vs-chunked fingerprints with differing combined
hashes, at least one changed chunk and nonnegative chunk weights (as all
engine-generated fingerprints have), the chunk verdict has confidence ≥ 0.85
and `changed=true`, and the classifier returns it unchanged whether or not a
full-text similarity result is supplied. -/
theorem C9_chunk_verdict_dominates (old new : HashInfo)
    (ho : old.method = HashMethod.position_aware_chunked)
    (hn : new.method = HashMethod.position_aware_chunked)
    (hh : old.hash ≠ new.hash)
    (hne : changedChunks old.chunk_details new.chunk_details ≠ [])
    (hw : ∀ c ∈ old.chunk_details ++ new.chunk_details, 0 ≤ c.weight) :
    ∃ r, compare_chunk_hashes old new = some r ∧ r.changed = true ∧
      85/100 ≤ r.confidence ∧
      ∀ sim : Option Similarity,
        calculate_change_confidence old new sim = verdictOfChunkResult r := by
  have hspec := compare_chunk_hashes_spec old new ho hn hne
  have hlow := compare_conf_lower old new _ hspec hw
  refine ⟨_, hspec, rfl, hlow, ?_⟩
  intro sim
  exact calc_chunk_gate old new _ sim hh hspec ⟨rfl, hlow⟩

/-- Witness for C9 (amended) at a concrete two-chunk pair. -/
theorem C9_witness :
    ∃ r, compare_chunk_hashes wOldNine wNewNine = some r ∧ r.changed = true ∧
      85/100 ≤ r.confidence ∧
      ∀ sim : Option Similarity,
        calculate_change_confidence wOldNine wNewNine sim = verdictOfChunkResult r :=
  C9_chunk_verdict_dominates wOldNine wNewNine rfl rfl (by decide)
    (by decide) (by decide)

/-- C1 counterexample: a chunked-vs-chunked verdict of confidence 0.775
without an important change is at or above the claimed 0.75 escalation
threshold, yet the monitoring cycle's live check (`confidence < 0.80`,
monitor_service.py line 978) escalates, and performing the similarity pass
then flips the verdict from changed to unchanged: the claim's thresholds
(0.75/0.70, from the uncalled helper `should_do_additional_verification`)
are not the ones the code uses. -/
theorem compare_cxOne :
    compare_chunk_hashes cxOldOne cxNewOne =
      some ⟨true, min (95/100) (85/100 + (-3 : ℚ) / (7 + -3) * (10/100)),
        [⟨0, ChangeType.modified, -3, some 0, some 1⟩],
        (-3 : ℚ) / (7 + -3), false⟩ :=
  compare_single_modified "x" "y" "a" "b" (92/100) (92/100) 1 1 7 (-3)
    (by decide) (by norm_num) (by norm_num)

theorem C1_counterexample :
    cxOldOne.method = HashMethod.position_aware_chunked ∧
    cxNewOne.method = HashMethod.position_aware_chunked ∧
    (calculate_change_confidence cxOldOne cxNewOne none).has_important_change
      = false ∧
    75/100 ≤ (calculate_change_confidence cxOldOne cxNewOne none).confidence ∧
    monitorNeedsSimilarityCheck (calculate_change_confidence cxOldOne cxNewOne none)
      = true ∧
    (calculate_change_confidence cxOldOne cxNewOne none).changed = true ∧
    (calculate_change_confidence cxOldOne cxNewOne
      (some ⟨1, false, 0⟩)).changed = false := by
  have hnone := calc_none_eq cxOldOne cxNewOne _ (by decide) compare_cxOne
  have hconf : (min ((95 : ℚ)/100) (85/100 + (-3 : ℚ) / (7 + -3) * (10/100)))
      = 31/40 := by
    rw [min_eq_right (by norm_num)]
    norm_num
  refine ⟨rfl, rfl, ?_, ?_, ?_, ?_, ?_⟩
  · rw [hnone]
    rfl
  · rw [hnone]
    simp only [verdictOfChunkResult]
    rw [hconf]
    norm_num
  · rw [hnone]
    simp only [monitorNeedsSimilarityCheck, verdictOfChunkResult, decide_eq_true_eq]
    rw [hconf]
    norm_num
  · rw [hnone]
    rfl
  · have h := calc_sim_highsim cxOldOne cxNewOne _ ⟨1, false, 0⟩ (by decide)
      compare_cxOne
      (by
        intro hgate
        have h2 := hgate.2
        dsimp only at h2
        rw [hconf] at h2
        norm_num at h2)
      rfl (by norm_num)
    rw [h]
    rfl

/-- C1 (amended): the monitoring cycle escalates to the full-text similarity
pass on the fixed threshold `confidence < 0.80`, independent of
`hasImportantChange` (the 0.75/0.70 thresholds live only in the uncalled
helper).  For chunked-vs-chunked classifications with nonnegative chunk
weights the verdict confidence is always ≥ 0.85, so neither the live 0.80
check nor the helper's 0.75/0.70 check fires and the supplied prior/current
texts have no influence on the cycle's outcome. -/
theorem C1_no_escalation_for_chunked (m : Matcher) (old cur : HashInfo)
    (pre post : Option String) (content : String)
    (ho : old.method = HashMethod.position_aware_chunked)
    (hc : cur.method = HashMethod.position_aware_chunked)
    (hw : ∀ c ∈ old.chunk_details ++ cur.chunk_details, 0 ≤ c.weight) :
    85/100 ≤ (calculate_change_confidence old cur none).confidence ∧
    monitorNeedsSimilarityCheck (calculate_change_confidence old cur none) = false ∧
    should_do_additional_verification (calculate_change_confidence old cur none)
      = false ∧
    monitor_single_url_core m old cur pre post content =
      monitor_single_url_core m old cur none post content := by
  have hconf : 85/100 ≤ (calculate_change_confidence old cur none).confidence := by
    by_cases hhash : old.hash = cur.hash
    · unfold calculate_change_confidence
      rw [if_pos hhash]
      norm_num [mkVerdict]
    · have hsome : ∃ r, compare_chunk_hashes old cur = some r := by
        by_cases hcc : changedChunks old.chunk_details cur.chunk_details = []
        · exact ⟨_, compare_chunk_hashes_nochange old cur ho hc hcc⟩
        · exact ⟨_, compare_chunk_hashes_spec old cur ho hc hcc⟩
      obtain ⟨r, hr⟩ := hsome
      have hlow := compare_conf_lower old cur r hr hw
      unfold calculate_change_confidence
      rw [if_neg hhash]
      simp only [hr]
      split
      · exact hlow
      · exact hlow
  have hesc : monitorNeedsSimilarityCheck (calculate_change_confidence old cur none)
      = false := by
    simp only [monitorNeedsSimilarityCheck, decide_eq_false_iff_not, not_lt]
    linarith
  refine ⟨hconf, hesc, ?_, ?_⟩
  · simp only [should_do_additional_verification, decide_eq_false_iff_not, not_lt]
    split <;> linarith
  · unfold monitor_single_url_core
    simp only [hesc]
    simp

/-- Witness for C1 (amended) at a concrete chunked pair and environment. -/
theorem C1_witness :
    85/100 ≤ (calculate_change_confidence wOldOne wNewOne none).confidence ∧
    monitorNeedsSimilarityCheck (calculate_change_confidence wOldOne wNewOne none)
      = false ∧
    should_do_additional_verification
        (calculate_change_confidence wOldOne wNewOne none) = false ∧
    monitor_single_url_core trivMatcher wOldOne wNewOne (some "p") none "c" =
      monitor_single_url_core trivMatcher wOldOne wNewOne none none "c" :=
  C1_no_escalation_for_chunked trivMatcher wOldOne wNewOne (some "p") none "c"
    rfl rfl (by decide)

theorem enhanced_major (m : Matcher) (oldText newText : String)
    (hmax : 0 < max oldText.length newText.length)
    (hld : 3/10 < ((((oldText.length : ℤ) - (newText.length : ℤ)).natAbs : ℚ) /
      ((max oldText.length newText.length : ℕ) : ℚ))) :
    enhanced_content_comparison m oldText newText =
      ⟨0, true, ((((oldText.length : ℤ) - (newText.length : ℤ)).natAbs : ℚ) /
        ((max oldText.length newText.length : ℕ) : ℚ))⟩ := by
  simp only [enhanced_content_comparison]
  rw [if_neg (by omega), if_pos hld]

/-- C3 counterexample: two texts of lengths 10 and 6 (40% shrink, above the
30% bound) whose fingerprints carry the identical hash value: the similarity
pass reports similarity 0, but the classifier returns `changed=false`
(confidence 0.99) because the hash-equality branch is terminal and never
consults the similarity result — the "regardless of the outcome of the hash
comparison" part of the claim fails. -/
theorem C3_counterexample :
    3/10 < (((("aaaaaaaaaa" : String).length : ℤ) -
        (("aaaaaa" : String).length : ℤ)).natAbs : ℚ) /
      ((max ("aaaaaaaaaa" : String).length ("aaaaaa" : String).length : ℕ) : ℚ) ∧
    (enhanced_content_comparison trivMatcher "aaaaaaaaaa" "aaaaaa").similarity = 0 ∧
    cxOldThree.hash = cxNewThree.hash ∧
    (calculate_change_confidence cxOldThree cxNewThree
      (some (enhanced_content_comparison trivMatcher "aaaaaaaaaa" "aaaaaa"))).changed
      = false := by
  have h1 : ("aaaaaaaaaa" : String).length = 10 := rfl
  have h2 : ("aaaaaa" : String).length = 6 := rfl
  have hld : 3/10 < (((("aaaaaaaaaa" : String).length : ℤ) -
      (("aaaaaa" : String).length : ℤ)).natAbs : ℚ) /
      ((max ("aaaaaaaaaa" : String).length ("aaaaaa" : String).length : ℕ) : ℚ) := by
    rw [h1, h2]
    norm_num
  refine ⟨hld, ?_, rfl, ?_⟩
  · rw [enhanced_major trivMatcher _ _ (by rw [h1, h2]; norm_num) hld]
  · rw [calc_hash_eq cxOldThree cxNewThree _ rfl]
    rfl

/-- C3 (amended): for texts whose lengths differ by more than 30% of the
longer one, the similarity pass reports similarity 0, and — provided the two
fingerprints' hash values differ (hash equality is terminal and ignores the
similarity input) — the classifier's final verdict is `changed=true`
regardless of the chunk comparison's outcome. -/
theorem C3_major_shrink_forces_changed (m : Matcher)
    (old_info new_info : HashInfo) (oldText newText : String)
    (hh : old_info.hash ≠ new_info.hash)
    (hmax : 0 < max oldText.length newText.length)
    (hld : 3/10 < ((((oldText.length : ℤ) - (newText.length : ℤ)).natAbs : ℚ) /
      ((max oldText.length newText.length : ℕ) : ℚ))) :
    (enhanced_content_comparison m oldText newText).similarity = 0 ∧
    (calculate_change_confidence old_info new_info
      (some (enhanced_content_comparison m oldText newText))).changed = true := by
  have hsim : (enhanced_content_comparison m oldText newText).similarity = 0 := by
    rw [enhanced_major m oldText newText hmax hld]
  refine ⟨hsim, ?_⟩
  cases hcr : compare_chunk_hashes old_info new_info with
  | some r =>
      by_cases hgate : r.changed = true ∧ 85/100 ≤ r.confidence
      · rw [calc_chunk_gate old_info new_info r _ hh hcr hgate]
        simp only [verdictOfChunkResult]
        exact hgate.1
      · rw [calc_chunk_sim old_info new_info r _ hh hcr hgate]
        by_cases himp : r.has_important_change = true
        · rw [if_pos himp, if_pos (by rw [hsim]; norm_num)]
          rfl
        · rw [if_neg himp, if_pos (by rw [hsim]; norm_num)]
          rfl
  | none =>
      rw [calc_nonchunk_sim old_info new_info _ hh hcr]
      rw [if_neg (by
        intro hcon
        rw [hsim] at hcon
        exact absurd hcon.1 (by norm_num))]
      rw [if_neg (by rw [hsim]; norm_num)]
      rfl

/-- Witness for C3 (amended) at concrete texts of lengths 10 and 6 and a
concrete pair of differing fingerprints. -/
theorem C3_witness :
    (enhanced_content_comparison trivMatcher "bbbbbbbbbb" "bbbbbb").similarity = 0 ∧
    (calculate_change_confidence wOldTwo wNewTwo
      (some (enhanced_content_comparison trivMatcher "bbbbbbbbbb" "bbbbbb"))).changed
      = true :=
  C3_major_shrink_forces_changed trivMatcher wOldTwo wNewTwo "bbbbbbbbbb" "bbbbbb"
    (by decide) (by decide)
    (by
      rw [show ("bbbbbbbbbb" : String).length = 10 from rfl,
        show ("bbbbbb" : String).length = 6 from rfl]
      norm_num)

theorem pyRange_head (n step : ℕ) (hn : 0 < n) (hs : 0 < step) :
    ∃ rest, pyRange n step = 0 :: rest := by
  unfold pyRange
  have hk : 0 < (n + step - 1) / step := Nat.div_pos (by omega) hs
  obtain ⟨m, hm⟩ := Nat.exists_eq_succ_of_ne_zero (Nat.pos_iff_ne_zero.mp hk)
  rw [hm, List.range_succ_eq_map]
  refine ⟨List.map (fun x => x * step) (List.map Nat.succ (List.range m)), ?_⟩
  rw [List.map_cons]
  simp

theorem generate_large (h : Hashing) (content : String) (chunk_size : ℕ)
    (hlen : chunk_size < content.length) :
    generate_position_aware_hash h content chunk_size =
      ⟨h.md5 (String.join (((buildChunks h content chunk_size
          (pyRange content.length (chunk_size / 2)) 0).map
          (fun c => List.replicate c.weight.floor.toNat c.hash)).flatten)),
        HashMethod.position_aware_chunked, 92/100,
        (buildChunks h content chunk_size
          (pyRange content.length (chunk_size / 2)) 0).length,
        buildChunks h content chunk_size
          (pyRange content.length (chunk_size / 2)) 0⟩ := by
  unfold generate_position_aware_hash
  rw [if_neg (by omega)]

theorem buildChunks_cons (h : Hashing) (content : String) (chunk_size : ℕ)
    (i : ℕ) (rest : List ℕ) (kept : ℕ) :
    buildChunks h content chunk_size (i :: rest) kept =
      (if (pySlice content i chunk_size).length < 100 then
        buildChunks h content chunk_size rest kept
      else
        ⟨i, i + (pySlice content i chunk_size).length,
          h.md5 (h.normalize (pySlice content i chunk_size)),
          if kept = 0 then 3 else if kept = 1 then 2 else 1⟩ ::
          buildChunks h content chunk_size rest (kept + 1)) := rfl

/-- C4: a text of exactly the chunk-size threshold length (2000 by default)
is fingerprinted with the whole-text `simple_content` method at confidence
0.9; a text one character longer uses `position_aware_chunked` and carries a
nonempty `chunk_details` list.  Proved for every threshold of at least 100
characters (below which the first window would be discarded as tiny). -/
theorem C4_size_threshold (h : Hashing) (chunk_size : ℕ) (hcs : 100 ≤ chunk_size)
    (c1 c2 : String) (h1 : c1.length = chunk_size)
    (h2 : c2.length = chunk_size + 1) :
    ((generate_position_aware_hash h c1 chunk_size).method =
        HashMethod.simple_content ∧
     (generate_position_aware_hash h c1 chunk_size).confidence = 9/10) ∧
    ((generate_position_aware_hash h c2 chunk_size).method =
        HashMethod.position_aware_chunked ∧
     (generate_position_aware_hash h c2 chunk_size).chunk_details ≠ []) := by
  constructor
  · unfold generate_position_aware_hash
    rw [if_pos (by omega)]
    exact ⟨rfl, rfl⟩
  · rw [generate_large h c2 chunk_size (by omega)]
    refine ⟨rfl, ?_⟩
    obtain ⟨rest, hrest⟩ := pyRange_head c2.length (chunk_size / 2)
      (by omega) (by omega)
    have hchunk : (pySlice c2 0 chunk_size).length = chunk_size := by
      have e1 : (pySlice c2 0 chunk_size).length =
          (List.take chunk_size (List.drop 0 c2.toList)).length := rfl
      have e2 : c2.toList.length = c2.length := rfl
      rw [e1, List.drop_zero, List.length_take, e2, h2]
      omega
    show (buildChunks h c2 chunk_size
      (pyRange c2.length (chunk_size / 2)) 0) ≠ []
    rw [hrest, buildChunks_cons, hchunk, if_neg (by omega)]
    exact List.cons_ne_nil _ _

/-- Witness for C4 at the default threshold 2000 and two concrete texts of
lengths 2000 and 2001. -/
theorem C4_witness :
    ((generate_position_aware_hash dummyHashing textAtThreshold 2000).method =
        HashMethod.simple_content ∧
     (generate_position_aware_hash dummyHashing textAtThreshold 2000).confidence
       = 9/10) ∧
    ((generate_position_aware_hash dummyHashing textPastThreshold 2000).method =
        HashMethod.position_aware_chunked ∧
     (generate_position_aware_hash dummyHashing textPastThreshold
        2000).chunk_details ≠ []) :=
  C4_size_threshold dummyHashing 2000 (by norm_num) textAtThreshold
    textPastThreshold
    (by show (List.replicate 2000 'a').length = 2000; simp only [List.length_replicate])
    (by show (List.replicate 2001 'a').length = 2001; simp only [List.length_replicate])

theorem pruneLoop_spec (ok : String → Bool) (l : List String) :
    (pruneLoop ok l).1 = l.countP ok ∧
      (pruneLoop ok l).2 = l.filter (fun f => !ok f) := by
  induction l with
  | nil => exact ⟨rfl, rfl⟩
  | cons a t ih =>
      unfold pruneLoop
      by_cases ha : ok a
      · simp [ha, List.countP_cons, ih.1, ih.2, List.filter_cons]
      · simp [ha, List.countP_cons, ih.1, ih.2, List.filter_cons]

/-- C7: with `keep + k` stored snapshots (`k > 0`), pruning keeps the `keep`
lexicographically greatest (= most recently stored, given the fixed-width
timestamp prefix) filenames and attempts to delete exactly the `k` smallest.
The reported count equals the number of delete candidates whose removal
succeeded — so one failed delete does not prevent the others — and it equals
`k` when every delete succeeds, in which case exactly the `keep` newest files
remain; every remaining file sorts at or above every delete candidate. -/
theorem C7_retention (removeOk : String → Bool) (dir : List String) (keep k : ℕ)
    (hlen : dir.length = keep + k) (hk : 0 < k) :
    (clean_old_versions removeOk dir keep).1 =
      ((sortDesc dir).drop keep).countP removeOk ∧
    ((∀ f ∈ (sortDesc dir).drop keep, removeOk f = true) →
      (clean_old_versions removeOk dir keep).1 = k) ∧
    ((∀ f, removeOk f = true) →
      (clean_old_versions removeOk dir keep).2 = (sortDesc dir).take keep) ∧
    (∀ f ∈ (sortDesc dir).take keep, ∀ g ∈ (sortDesc dir).drop keep, g ≤ f) := by
  have hslen : (sortDesc dir).length = dir.length :=
    (List.perm_insertionSort _ dir).length_eq
  have hif : keep < (sortDesc dir).length := by omega
  have hcl : clean_old_versions removeOk dir keep =
      ((pruneLoop removeOk ((sortDesc dir).drop keep)).1,
        (sortDesc dir).take keep ++
          (pruneLoop removeOk ((sortDesc dir).drop keep)).2) := by
    unfold clean_old_versions
    rw [if_pos hif]
  have hp := pruneLoop_spec removeOk ((sortDesc dir).drop keep)
  refine ⟨?_, ?_, ?_, ?_⟩
  · rw [hcl]
    exact hp.1
  · intro hall
    have hc : ((sortDesc dir).drop keep).countP removeOk =
        ((sortDesc dir).drop keep).length := List.countP_eq_length.mpr hall
    rw [hcl]
    dsimp only
    rw [hp.1, hc, List.length_drop, hslen, hlen]
    omega
  · intro hall
    have hf : ((sortDesc dir).drop keep).filter (fun f => !removeOk f) = [] := by
      apply List.filter_eq_nil_iff.mpr
      intro a _
      simp [hall a]
    rw [hcl]
    dsimp only
    rw [hp.2, hf, List.append_nil]
  · have h1 : IsTotal String (fun a b : String => b ≤ a) := ⟨fun a b => le_total b a⟩
    have h2 : IsTrans String (fun a b : String => b ≤ a) :=
      ⟨fun _ _ _ hab hbc => le_trans hbc hab⟩
    have hsorted : List.Sorted (fun a b : String => b ≤ a) (sortDesc dir) :=
      List.sorted_insertionSort _ dir
    rw [← List.take_append_drop keep (sortDesc dir)] at hsorted
    intro f hf g hg
    exact (List.pairwise_append.mp hsorted).2.2 f hf g hg

/-- Witness for C7 at a concrete store of 7 files, keep 5, all deletes
succeeding. -/
theorem C7_witness :
    (clean_old_versions (fun _ => true) sevenFiles 5).1 =
      ((sortDesc sevenFiles).drop 5).countP (fun _ => true) ∧
    ((∀ f ∈ (sortDesc sevenFiles).drop 5, (fun _ => true) f = true) →
      (clean_old_versions (fun _ => true) sevenFiles 5).1 = 2) ∧
    ((∀ f : String, (fun _ => true) f = true) →
      (clean_old_versions (fun _ => true) sevenFiles 5).2 =
        (sortDesc sevenFiles).take 5) ∧
    (∀ f ∈ (sortDesc sevenFiles).take 5, ∀ g ∈ (sortDesc sevenFiles).drop 5,
      g ≤ f) :=
  C7_retention (fun _ => true) sevenFiles 5 2 rfl (by norm_num)

theorem processLine_sig (k : LineKind) (st : ChunkDiffState) (line : String) :
    (processLine k st line).significant =
      (st.significant || (decide (k ≠ LineKind.ctx) && significantLine line)) := by
  unfold processLine
  cases hsl : significantLine line with
  | false =>
      rw [if_neg (by simp [hsl])]
      simp
  | true =>
      cases k <;> simp

theorem foldl_processLine_sig (k : LineKind) (ls : List String)
    (st : ChunkDiffState) :
    ((ls.foldl (processLine k) st).significant) =
      (st.significant || (decide (k ≠ LineKind.ctx) && ls.any significantLine)) := by
  induction ls generalizing st with
  | nil => simp
  | cons a t ih =>
      rw [List.foldl_cons, ih, processLine_sig, List.any_cons]
      cases st.significant <;> cases hsl : significantLine a <;>
        cases hd : decide (k ≠ LineKind.ctx) <;> simp

theorem processOpcode_sig (ol nl : List String) (st : ChunkDiffState)
    (op : Opcode) :
    (processOpcode ol nl st op).significant =
      (st.significant || (opLines op ol nl).any significantLine) := by
  cases h : op.tag <;>
    simp [processOpcode, opLines, h, foldl_processLine_sig, List.any_append] <;>
    cases st.significant <;> simp [Bool.or_assoc]

theorem foldl_processOpcode_sig (ol nl : List String) (ops : List Opcode)
    (st : ChunkDiffState) :
    ((ops.foldl (processOpcode ol nl) st).significant) =
      (st.significant ||
        ops.any (fun op => (opLines op ol nl).any significantLine)) := by
  induction ops generalizing st with
  | nil => simp
  | cons a t ih =>
      rw [List.foldl_cons, ih, processOpcode_sig, List.any_cons]
      cases st.significant <;>
        cases h : (opLines a ol nl).any significantLine <;> simp

theorem processLine_events (k : LineKind) (st : ChunkDiffState) (line : String)
    (h : st.significant = true → st.events ≠ []) :
    (processLine k st line).significant = true →
      (processLine k st line).events ≠ [] := by
  unfold processLine
  cases hsl : significantLine line with
  | false =>
      rw [if_neg (by simp [hsl])]
      exact h
  | true =>
      cases k <;> simp

theorem foldl_processLine_events (k : LineKind) (ls : List String)
    (st : ChunkDiffState)
    (h : st.significant = true → st.events ≠ []) :
    ((ls.foldl (processLine k) st).significant = true →
      (ls.foldl (processLine k) st).events ≠ []) := by
  induction ls generalizing st with
  | nil => exact h
  | cons a t ih => exact ih _ (processLine_events k st a h)

theorem processOpcode_events (ol nl : List String) (st : ChunkDiffState)
    (op : Opcode)
    (h : st.significant = true → st.events ≠ []) :
    ((processOpcode ol nl st op).significant = true →
      (processOpcode ol nl st op).events ≠ []) := by
  cases htag : op.tag <;> simp only [processOpcode, htag]
  · exact foldl_processLine_events _ _ _ h
  · exact foldl_processLine_events _ _ _ h
  · exact foldl_processLine_events _ _ _ h
  · exact foldl_processLine_events _ _ _ (foldl_processLine_events _ _ _ h)

theorem foldl_processOpcode_events (ol nl : List String) (ops : List Opcode)
    (st : ChunkDiffState)
    (h : st.significant = true → st.events ≠ []) :
    ((ops.foldl (processOpcode ol nl) st).significant = true →
      (ops.foldl (processOpcode ol nl) st).events ≠ []) := by
  induction ops generalizing st with
  | nil => exact h
  | cons a t ih => exact ih _ (processOpcode_events ol nl st a h)

theorem truthy_if (sig : Bool) (evs : List DiffEvent)
    (hev : sig = true → evs ≠ []) :
    chunkDiffTruthy (if sig = true then some evs.reverse else none) = sig := by
  cases sig with
  | false => simp [chunkDiffTruthy]
  | true =>
      simp only [if_pos rfl, chunkDiffTruthy]
      simp [List.isEmpty_eq_true, List.reverse_eq_nil_iff]
      exact hev rfl

theorem generate_chunk_diff_snd (m : Matcher) (oc nc : String) (k : ℕ) :
    (generate_chunk_diff m oc nc k).2 =
      ((m.opcodes ((pySplitlines oc).map rstripCRLF)
          ((pySplitlines nc).map rstripCRLF)).any
        (fun op => (opLines op ((pySplitlines oc).map rstripCRLF)
          ((pySplitlines nc).map rstripCRLF)).any significantLine)) := by
  unfold generate_chunk_diff
  dsimp only
  rw [foldl_processOpcode_sig]
  simp

theorem generate_chunk_diff_truthy (m : Matcher) (oc nc : String) (k : ℕ) :
    chunkDiffTruthy (generate_chunk_diff m oc nc k).1 =
      (generate_chunk_diff m oc nc k).2 := by
  unfold generate_chunk_diff
  dsimp only
  exact truthy_if _ _ (foldl_processOpcode_events _ _ _ _
    (fun hx => absurd hx (by simp)))

theorem any_flatten {α : Type} (p : α → Bool) (L : List (List α)) :
    L.flatten.any p = L.any (fun l => l.any p) := by
  induction L with
  | nil => rfl
  | cons a t ih => simp [List.any_append, ih]

theorem any_map_general {α β : Type} (f : α → β) (l : List α) (p : β → Bool) :
    (l.map f).any p = l.any (fun a => p (f a)) := by
  induction l with
  | nil => rfl
  | cons a t ih => simp [List.any_cons, ih]

theorem any_congr {α : Type} (l : List α) (p q : α → Bool)
    (h : ∀ a ∈ l, p a = q a) : l.any p = l.any q := by
  induction l with
  | nil => rfl
  | cons a t ih =>
      simp only [List.any_cons, h a (by simp),
        ih (fun x hx => h x (by simp [hx]))]

theorem diffPair_snd (m : Matcher) (old_content new_content : String) (i : ℕ) :
    (generate_chunk_diff m ((chunk_large_content old_content 50000).getD i "")
      ((chunk_large_content new_content 50000).getD i "") (i + 1)).2 =
      (differingLines m old_content new_content i).any significantLine := by
  rw [generate_chunk_diff_snd]
  unfold differingLines chunkLines
  rw [any_flatten, any_map_general]

/-- C8: the diff renderer returns no report exactly when, in every chunk
pair, every line the matcher's opcodes mark as differing (old-side lines of
delete/replace spans, new-side lines of insert/replace spans) is blank or
comment-only; it returns a report exactly when at least one differing line
is non-blank and not comment-only. -/
theorem C8_render_none_iff (m : Matcher) (old_content new_content : String) :
    generate_enhanced_html_diff m old_content new_content = none ↔
      ∀ i < max (chunk_large_content old_content 50000).length
          (chunk_large_content new_content 50000).length,
        ∀ line ∈ differingLines m old_content new_content i,
          significantLine line = false := by
  have hsig :
      ((List.range (max (chunk_large_content old_content 50000).length
          (chunk_large_content new_content 50000).length)).map
        (fun i => generate_chunk_diff m
          ((chunk_large_content old_content 50000).getD i "")
          ((chunk_large_content new_content 50000).getD i "") (i + 1))).any
          (fun r => chunkDiffTruthy r.1 && r.2) =
      (List.range (max (chunk_large_content old_content 50000).length
          (chunk_large_content new_content 50000).length)).any
        (fun i => (differingLines m old_content new_content i).any
          significantLine) := by
    rw [any_map_general]
    apply any_congr
    intro i _
    dsimp only
    rw [generate_chunk_diff_truthy, Bool.and_self, diffPair_snd]
  unfold generate_enhanced_html_diff
  dsimp only
  rw [hsig]
  cases hany : (List.range (max (chunk_large_content old_content 50000).length
      (chunk_large_content new_content 50000).length)).any
    (fun i => (differingLines m old_content new_content i).any
      significantLine) with
  | true =>
      simp only [if_pos rfl]
      constructor
      · intro h
        cases h
      · intro hall
        exfalso
        rw [List.any_eq_true] at hany
        obtain ⟨i, hi, hline⟩ := hany
        rw [List.any_eq_true] at hline
        obtain ⟨line, hmem, hsl⟩ := hline
        have := hall i (List.mem_range.mp hi) line hmem
        rw [this] at hsl
        cases hsl
  | false =>
      simp only [Bool.false_eq_true, if_false, true_iff]
      have hany' := List.any_eq_false.mp hany
      intro i hi line hmem
      have h1 := hany' i (List.mem_range.mpr hi)
      rw [List.any_eq_true] at h1
      push_neg at h1
      have := h1 line hmem
      cases hsl : significantLine line
      · rfl
      · exact absurd hsl this

end JsSentinel
